import Mathlib

/-!
Verification of the container-registry view layer of `pulp_container`
(`src/pulp_container/app/viewsets.py`): a shallow embedding of the data model
and of the push/pull operations `BlobUploads.create/partial_update/put`,
`Manifests.head/get/put/receive_artifact` and
`ContainerRepositoryViewSet.remove`, with theorems about digest verification,
duplicate-key recovery, tag supersession, reference resolution and the
removal sentinel.

The relational rows (Artifact, Blob, Manifest, Tag, Upload, the through table
BlobManifest and the content-artifact association) are lists of records; the
uniqueness constraints and the repository-version semantics live in
`pulp_container/app/models.py` and in pulpcore, which are not part of the
repository's files here, so those pieces are modelled from the spec (each such
definition says so in its doc comment).  The SHA-256 primitive `hashlib.sha256`
and the JSON decoder `json.loads` are external libraries and enter the
embedding as function parameters (`sha256hex`, `jsonLoads`); all claims treat
them as black boxes.
-/

namespace PulpContainer

/-- An Artifact row: the stored byte payload's primary digest and size.
The secondary digests (md5, sha1, sha384, sha512) are carried by the source
alongside sha256 but are never used for identity (spec section 6), so only the
primary digest is modelled. -/
structure Artifact where
  sha256 : String
  size : Nat
  deriving DecidableEq, Repr

/-- A Blob row (`models.Blob`): a content unit identified by `digest`, with a
`media_type`. -/
structure Blob where
  digest : String
  mediaType : String
  deriving DecidableEq, Repr

/-- A Manifest row (`models.Manifest`): identified by `digest`; `configBlob`
holds the digest key of the referenced config Blob row (the foreign key is
represented by the target's unique content key). -/
structure Manifest where
  digest : String
  schemaVersion : Nat
  mediaType : String
  configBlob : String
  deriving DecidableEq, Repr

/-- A Tag row (`models.Tag`): `name` and the digest key of `tagged_manifest`. -/
structure Tag where
  name : String
  taggedManifest : String
  deriving DecidableEq, Repr

/-- An Upload row (`models.Upload`): the upload's primary key, the current
`offset` and the bytes stored so far.  The source's running hash accumulators
(`upload.sha256` and friends) are determined by the consumed byte stream, so
they are represented by the stored bytes: `upload.sha256 = sha256hex data`. -/
structure Upload where
  pk : Nat
  offset : Nat
  data : List Nat
  deriving DecidableEq, Repr

/-- A ContentArtifact row linking a saved Artifact to a content unit under a
relative path. -/
structure ContentArtifact where
  artifactSha256 : String
  contentKey : String
  relativePath : String
  deriving DecidableEq, Repr

/-- A content unit as it appears in a repository version's content set,
discriminated by kind and identified by the unit's natural key (digest for
Blob and Manifest, the (name, tagged_manifest) pair for Tag). -/
inductive ContentUnit where
  | blob (digest : String)
  | manifest (digest : String)
  | tag (name : String) (taggedManifest : String)
  deriving DecidableEq, Repr

/-- The durable relational state one registry repository sees: the entity
tables and the repository's version history (`versions`, newest first; each
element is that version's content set). -/
structure DB where
  artifacts : List Artifact
  blobs : List Blob
  manifests : List Manifest
  blobManifests : List (String × String)
  tags : List Tag
  contentArtifacts : List ContentArtifact
  uploads : List Upload
  versions : List (List ContentUnit)
  deriving DecidableEq, Repr

/-- The error outcomes of the embedded handlers, named as the spec's error
taxonomy names them (section 7).  `offsetMismatch` is the bare
`raise Exception` of `BlobUploads.partial_update`, `digestMismatch` the
`raise Exception("The digest did not match")` of `BlobUploads.put`,
`unresolvedReference` the `DoesNotExist` of the config-blob lookup in
`Manifests.put`, `notFound` a 404 lookup failure, and
`unboundLocalChunkSize` Python's UnboundLocalError raised when the
whole-body path of `partial_update` reads the never-assigned local
`chunk_size`. -/
inductive RegistryError where
  | notFound
  | offsetMismatch
  | digestMismatch
  | unresolvedReference
  | unboundLocalChunkSize
  deriving DecidableEq, Repr

/-- The `MEDIA_TYPE.REGULAR_BLOB` constant used by `BlobUploads.put`
(declared in `pulp_container/app/constants.py`, not among the repository's
files; the value is the upstream layer media type). -/
def REGULAR_BLOB : String := "application/vnd.docker.image.rootfs.diff.tar.gzip"

/-- Appends `x` unless it is already present: one step of a set-valued
bulk insert with duplicate rows ignored. -/
def insertNew {α : Type} [DecidableEq α] (acc : List α) (x : α) : List α :=
  if x ∈ acc then acc else acc ++ [x]

/-- Inserts every element of `xs`, skipping those already present: the
ignore-conflicts bulk insert used for through-table rows, and the
set-semantics addition of content units to a version under construction. -/
def addAll {α : Type} [DecidableEq α] (acc : List α) (xs : List α) : List α :=
  xs.foldl insertNew acc

/-- The `artifact.save()` with `except IntegrityError: artifact =
Artifact.objects.get(sha256=...)` pattern of `BlobUploads.put` and
`Manifests.receive_artifact`.  The uniqueness key is pulpcore's
`Artifact.sha256` constraint, modelled from the spec: "creating an Artifact
whose primary digest already exists returns the existing record rather than
erroring". -/
def saveArtifact (db : DB) (a : Artifact) : DB × Artifact :=
  match db.artifacts.find? (fun x => decide (x.sha256 = a.sha256)) with
  | some existing => (db, existing)
  | none => ({ db with artifacts := db.artifacts ++ [a] }, a)

/-- The `blob.save()` with `except IntegrityError: blob =
models.Blob.objects.get(digest=digest)` pattern of `BlobUploads.put`.  The
uniqueness key is `Blob.digest`, modelled from the spec: "Blob: a content
unit ... identified by `digest`". -/
def saveBlob (db : DB) (b : Blob) : DB × Blob :=
  match db.blobs.find? (fun x => decide (x.digest = b.digest)) with
  | some existing => (db, existing)
  | none => ({ db with blobs := db.blobs ++ [b] }, b)

/-- The `manifest.save()` with `except IntegrityError: manifest =
models.Manifest.objects.get(digest=manifest.digest)` pattern of
`Manifests.put`.  The uniqueness key is `Manifest.digest`, modelled from the
spec: "Manifest: a content unit identified by `digest`". -/
def saveManifest (db : DB) (m : Manifest) : DB × Manifest :=
  match db.manifests.find? (fun x => decide (x.digest = m.digest)) with
  | some existing => (db, existing)
  | none => ({ db with manifests := db.manifests ++ [m] }, m)

/-- The `tag.save()` with `except IntegrityError: pass` pattern of
`Manifests.put`: on a duplicate the row already present is kept and the
insert is dropped.  The uniqueness key is the (name, tagged_manifest) pair,
modelled from the spec: "create or reuse a Tag row for `tag_name` →
manifest" (the Tag content unit itself is immutable once created). -/
def saveTag (db : DB) (t : Tag) : DB :=
  if db.tags.any (fun x => decide (x.name = t.name ∧ x.taggedManifest = t.taggedManifest))
  then db
  else { db with tags := db.tags ++ [t] }

/-- The `ContentArtifact(...).save()` with `except IntegrityError: pass`
pattern of `BlobUploads.put` and `Manifests.put`; unique per
(content, relative_path), modelled from the spec's content-artifact
association. -/
def saveContentArtifact (db : DB) (ca : ContentArtifact) : DB :=
  if db.contentArtifacts.any
      (fun x => decide (x.contentKey = ca.contentKey ∧ x.relativePath = ca.relativePath))
  then db
  else { db with contentArtifacts := db.contentArtifacts ++ [ca] }

/-- The content set of `repository.latest_version()`: the newest version's
content, or empty when the repository has no version yet. -/
def latestContent (db : DB) : List ContentUnit :=
  db.versions.headD []

/-- Modelled from the spec: pulpcore's `repository.new_version()` context
manager is not among the repository's files.  Per spec section 4.4, on exit
a new immutable version is published atomically, its content computed from
the previous version's content by the `add_content`/`remove_content` calls
made inside the scope, applied in order. -/
def publishVersion (db : DB) (content : List ContentUnit) : DB :=
  { db with versions := content :: db.versions }

/-- Modelled from the spec: `new_version.add_content(queryset)` adds the
queryset's content units to the version under construction; a version's
content is a set, so units already present are not duplicated. -/
def addUnits (content : List ContentUnit) (units : List ContentUnit) : List ContentUnit :=
  addAll content units

/-- Modelled from the spec: `new_version.remove_content(queryset)` removes the
queryset's content units from the version under construction. -/
def removeUnits (content : List ContentUnit) (units : List ContentUnit) : List ContentUnit :=
  content.filter (fun u => decide (u ∉ units))

/-- Modelled from the spec: `models.Upload.append_chunk` (in
`pulp_container/app/models.py`, not among the repository's files).  Per spec
section 4.2, a successful append "appends chunk bytes, updates running
multi-algorithm digest accumulators incrementally ..., advances `offset` by
chunk length".  The accumulators are determined by the stored bytes, so the
append stores the chunk and advances the offset; the `chunk_size` read-size
hint the caller passes is not part of the spec's contract and does not alter
which bytes are consumed. -/
def appendChunk (u : Upload) (chunk : List Nat) : Upload :=
  { u with data := u.data ++ chunk, offset := u.offset + chunk.length }

/-- Whether a character is an ASCII decimal digit, as the character class
`\d` of `content_range_pattern` matches one. -/
def charDigit (c : Char) : Bool :=
  decide (48 ≤ c.toNat) && decide (c.toNat ≤ 57)

/-- Value of a run of decimal digit characters. -/
def digitsVal (l : List Char) : Nat :=
  l.foldl (fun acc c => acc * 10 + (c.toNat - 48)) 0

/-- Splits a character list at its first dash; `none` when no dash occurs. -/
def splitAtDash : List Char → Option (List Char × List Char)
  | [] => none
  | c :: rest =>
    if c = '-' then some ([], rest)
    else
      match splitAtDash rest with
      | none => none
      | some (a, b) => some (c :: a, b)

/-- The `content_range_pattern` regex `^(?P<start>\d+)-(?P<end>\d+)$` of
`BlobUploads`: a digit run, a dash, a digit run; the groups' numeric values.
(Splitting at the first dash is equivalent to the regex because `\d` does not
match a dash.) -/
def parseContentRange (s : String) : Option (Nat × Nat) :=
  match splitAtDash s.toList with
  | none => none
  | some (a, b) =>
    if !a.isEmpty && !b.isEmpty && a.all charDigit && b.all charDigit then
      some (digitsVal a, digitsVal b)
    else none

/-- The `BlobUploads.create` handler: creates an Upload with an empty backing
file (the fresh primary key is supplied by the caller, as the store would). -/
def BlobUploads.create (db : DB) (freshPk : Nat) : DB × Upload :=
  let upload : Upload := { pk := freshPk, offset := 0, data := [] }
  ({ db with uploads := db.uploads ++ [upload] }, upload)

/-- The `BlobUploads.partial_update` chunk handler.  Inputs: `contentRange`
is the Content-Range header when one was sent, `hasDigest` whether the
`digest` query parameter is present, `chunk` the request body bytes.  The
result carries the state as left by the handler (the source has no enclosing
transaction, but no write precedes any of its raises) and the outcome.
Control flow follows the source: `whole` is true when no Content-Range header
came and a digest parameter did; the whole path assigns `start = 0` and
`end = chunk.size - 1` but never the local `chunk_size`, so reaching
`upload.append_chunk(chunk, chunk_size=chunk_size)` on that path raises
Python's UnboundLocalError, embedded as `RegistryError.unboundLocalChunkSize`. -/
def BlobUploads.partial_update (db : DB) (pk : Nat) (contentRange : Option String)
    (hasDigest : Bool) (chunk : List Nat) : DB × Except RegistryError Upload :=
  let whole := contentRange.isNone && hasDigest
  let startAndSize : Nat × Option Nat :=
    if whole then
      (0, none)
    else
      match parseContentRange (contentRange.getD "") with
      | none => (0, some 0)
      | some (s, e) => (s, some (e - s + 1))
  match db.uploads.find? (fun u => decide (u.pk = pk)) with
  | none => (db, .error .notFound)
  | some upload =>
    if upload.offset ≠ startAndSize.1 then
      (db, .error .offsetMismatch)
    else
      match startAndSize.2 with
      | none => (db, .error .unboundLocalChunkSize)
      | some _ =>
        let u2 := appendChunk upload chunk
        ({ db with uploads := db.uploads.map (fun u => if u.pk = pk then u2 else u) },
         .ok u2)

/-- The `BlobUploads.put` finalization handler.  `digest` is the asserted
digest query parameter; the comparison is the source's
`upload.sha256 == digest[len("sha256:"):]` — the first 7 characters of the
asserted string are dropped unconditionally, with no check that they are the
literal prefix "sha256:".  On match the Artifact and Blob are created with
duplicate-key recovery, the content-artifact link is stored, a new repository
version adds the Blob, and the Upload row is deleted; on mismatch the handler
raises and nothing is written. -/
def BlobUploads.put (sha256hex : List Nat → String) (db : DB) (pk : Nat)
    (digest : String) : DB × Except RegistryError Blob :=
  match db.uploads.find? (fun u => decide (u.pk = pk)) with
  | none => (db, .error .notFound)
  | some upload =>
    if sha256hex upload.data = digest.drop 7 then
      let r1 := saveArtifact db { sha256 := sha256hex upload.data, size := upload.data.length }
      let r2 := saveBlob r1.1 { digest := digest, mediaType := REGULAR_BLOB }
      let db3 := saveContentArtifact r2.1
        { artifactSha256 := r1.2.sha256, contentKey := r2.2.digest, relativePath := digest }
      let db4 := publishVersion db3
        (addUnits (latestContent db3) [ContentUnit.blob r2.2.digest])
      let db5 := { db4 with uploads := db4.uploads.filter (fun u => decide (u.pk ≠ pk)) }
      (db5, .ok r2.2)
    else
      (db, .error .digestMismatch)

/-- The parsed fields `json.loads` and the source extract from a manifest
body: `content_data.get("config").get("digest")` and the `digest` of each
entry of `content_data.get("layers")` (a well-formed schema-2 document, the
shape every claim about `Manifests.put` concerns). -/
structure ManifestDoc where
  config : String
  layers : List String
  deriving DecidableEq, Repr

/-- The `Manifests.receive_artifact` helper: streams the body in subchunks of
2,000,000 bytes, accumulating size and the digest hashers, then saves the
Artifact with duplicate-key recovery.  The incremental hashers' final value
is the digest of the concatenated stream, so the embedding hashes the whole
body. -/
def Manifests.receive_artifact (sha256hex : List Nat → String) (db : DB)
    (body : List Nat) : DB × Artifact :=
  saveArtifact db { sha256 := sha256hex body, size := body.length }

/-- The content set the `with repository.new_version()` block of
`Manifests.put` publishes, applied in order to the latest content: add the
units of the Manifest rows keyed by the new digest, remove the units of every
Tag row named `pk`, add the units of the Tag rows matching
(`pk`, new digest). -/
def Manifests.putVersionContent (db5 : DB) (pk mdigest : String) : List ContentUnit :=
  let base := latestContent db5
  let c1 := addUnits base
    ((db5.manifests.filter (fun m => decide (m.digest = mdigest))).map
      (fun m => ContentUnit.manifest m.digest))
  let c2 := removeUnits c1
    ((db5.tags.filter (fun t => decide (t.name = pk))).map
      (fun t => ContentUnit.tag t.name t.taggedManifest))
  addUnits c2
    ((db5.tags.filter (fun t => decide (t.name = pk ∧ t.taggedManifest = mdigest))).map
      (fun t => ContentUnit.tag t.name t.taggedManifest))

/-- The tail of `Manifests.put` once the config Blob resolved: save the
Manifest keyed by the hash of the body with duplicate-key recovery, store the
content-artifact link, bulk-link the Manifest to every layer digest that
resolves to an existing Blob row (layers that do not resolve are simply not
in the filtered queryset), save the Tag, and publish a new repository version
with the content `Manifests.putVersionContent` describes. -/
def Manifests.putResolved (db1 : DB) (artifact : Artifact) (doc : ManifestDoc)
    (config_blob : Blob) (pk : String) (mediaType : String) : DB × Manifest :=
  let r2 := saveManifest db1
    { digest := "sha256:" ++ artifact.sha256, schemaVersion := 2,
      mediaType := mediaType, configBlob := config_blob.digest }
  let manifest := r2.2
  let db3 := saveContentArtifact r2.1
    { artifactSha256 := artifact.sha256, contentKey := manifest.digest,
      relativePath := manifest.digest }
  let blobs_qs := db3.blobs.filter (fun b => decide (b.digest ∈ doc.layers))
  let thru := blobs_qs.map (fun b => (manifest.digest, b.digest))
  let db4 := { db3 with blobManifests := addAll db3.blobManifests thru }
  let db5 := saveTag db4 { name := pk, taggedManifest := manifest.digest }
  (publishVersion db5 (Manifests.putVersionContent db5 pk manifest.digest), manifest)

/-- The `Manifests.put` handler: receive the body as an Artifact, decode it,
resolve the config Blob (`models.Blob.objects.get(digest=...)` — its
`DoesNotExist` aborts the ingestion as `unresolvedReference` before any
Manifest, Tag or version write), then run the resolved tail.  `pk` is the tag
name from the URL; `jsonLoads` stands for the external `json.loads` plus
field extraction. -/
def Manifests.put (sha256hex : List Nat → String) (jsonLoads : List Nat → ManifestDoc)
    (db : DB) (pk : String) (body : List Nat) (mediaType : String) :
    DB × Except RegistryError Manifest :=
  let r1 := Manifests.receive_artifact sha256hex db body
  let doc := jsonLoads body
  match r1.1.blobs.find? (fun b => decide (b.digest = doc.config)) with
  | none => (r1.1, .error .unresolvedReference)
  | some config_blob =>
    let r := Manifests.putResolved r1.1 r1.2 doc config_blob pk mediaType
    (r.1, .ok r.2)

/-- The `Manifests.head` handler's reference resolution: when the first 7
characters of the reference are not the literal "sha256:", look up the Tag
with that name among the latest version's content and dereference
`tagged_manifest`; otherwise look up the Manifest with that digest among the
content.  A miss in either branch is a 404.  The result is the resolved
manifest's digest (the `Docker-Content-Digest` the response carries). -/
def Manifests.head (db : DB) (pk : String) : Except RegistryError String :=
  let content := latestContent db
  if pk.take 7 ≠ "sha256:" then
    match db.tags.find?
        (fun t => decide (t.name = pk ∧ ContentUnit.tag t.name t.taggedManifest ∈ content)) with
    | none => .error .notFound
    | some tag => .ok tag.taggedManifest
  else
    match db.manifests.find?
        (fun m => decide (m.digest = pk ∧ ContentUnit.manifest m.digest ∈ content)) with
    | none => .error .notFound
    | some manifest => .ok manifest.digest

/-- The `Manifests.get` handler's reference resolution: the source duplicates
the resolution code of `Manifests.head` verbatim (only the final response
differs: a redirect to the content app addressed by the resolved manifest's
digest). -/
def Manifests.get (db : DB) (pk : String) : Except RegistryError String :=
  let content := latestContent db
  if pk.take 7 ≠ "sha256:" then
    match db.tags.find?
        (fun t => decide (t.name = pk ∧ ContentUnit.tag t.name t.taggedManifest ∈ content)) with
    | none => .error .notFound
    | some tag => .ok tag.taggedManifest
  else
    match db.manifests.find?
        (fun m => decide (m.digest = pk ∧ ContentUnit.manifest m.digest ∈ content)) with
    | none => .error .notFound
    | some manifest => .ok manifest.digest

/-- The collection loop of `ContainerRepositoryViewSet.remove`: for each url,
a literal "*" resets the collected list to just the sentinel and stops;
otherwise `NamedModelViewSet.get_resource` resolves the url to a content
primary key (404 when it does not resolve) and the key is appended. -/
def removeLoop (resolve : String → Option String) :
    List String → List String → Except RegistryError (List String)
  | [], acc => .ok acc.reverse
  | url :: rest, acc =>
    if url = "*" then .ok ["*"]
    else
      match resolve url with
      | none => .error .notFound
      | some pkv => removeLoop resolve rest (pkv :: acc)

/-- The `ContainerRepositoryViewSet.remove` handler up to the enqueue: the
payload `content_units` the enqueued `recursive_remove_content` task receives
(an absent `content_units` key enqueues an empty list). -/
def ContainerRepositoryViewSet.remove (resolve : String → Option String)
    (content_units : Option (List String)) : Except RegistryError (List String) :=
  match content_units with
  | none => .ok []
  | some urls => removeLoop resolve urls []

/-- Key under which a content unit is listed in a removal payload. -/
def unitKey : ContentUnit → String
  | .blob d => d
  | .manifest d => d
  | .tag n tm => n ++ "@" ++ tm

/-- Modelled from the spec: `tasks.recursive_remove_content` is not among the
repository's files.  Per spec section 4.4, "a remove-set containing the
sentinel value [\x22*\x22] means remove every content unit currently in the
repository rather than a literal primary key — must be special-cased before
resolving content lookups", and removal publishes a new version. -/
def recursive_remove_content (db : DB) (content_units : List String) : DB :=
  if content_units.contains "*" then
    publishVersion db []
  else
    publishVersion db
      ((latestContent db).filter (fun u => !(content_units.contains (unitKey u))))

/-- Decidable equality of outcomes, so that concrete runs of the handlers can
be checked by evaluation. -/
instance exceptDecEq {ε α : Type} [DecidableEq ε] [DecidableEq α] :
    DecidableEq (Except ε α) := fun x y =>
  match x, y with
  | .ok a, .ok b =>
    if h : a = b then .isTrue (by rw [h]) else .isFalse (by simp [h])
  | .error a, .error b =>
    if h : a = b then .isTrue (by rw [h]) else .isFalse (by simp [h])
  | .ok _, .error _ => .isFalse (by simp)
  | .error _, .ok _ => .isFalse (by simp)

/-- The empty database: no rows, no repository version yet. -/
def emptyDB : DB :=
  { artifacts := [], blobs := [], manifests := [], blobManifests := [],
    tags := [], contentArtifacts := [], uploads := [], versions := [] }

/-- A concrete database holding one upload (pk 0, offset 0, no bytes yet),
used to exercise the theorems on concrete inputs. -/
def uploadDB : DB :=
  { emptyDB with uploads := [{ pk := 0, offset := 0, data := [] }] }

/-- A concrete database holding one pushed config blob, used to exercise the
manifest-ingestion theorems on concrete inputs. -/
def configBlobDB : DB :=
  { emptyDB with blobs := [{ digest := "sha256:cfg", mediaType := REGULAR_BLOB }] }

/-- A concrete database holding one artifact, used to exercise the
duplicate-key theorems on concrete inputs. -/
def artifactDB : DB :=
  { emptyDB with artifacts := [{ sha256 := "aa", size := 3 }] }

/-- Whether a content unit is a Tag with the given name. -/
def isTagNamed (n : String) : ContentUnit → Bool
  | .tag tname _ => decide (tname = n)
  | _ => false

/-- A concrete database whose latest version carries the tag "latest"
pointing at the manifest digest "sha256:old", with the config blob pushed:
the starting point for a concrete tag re-push. -/
def tagDB : DB :=
  { emptyDB with
    blobs := [{ digest := "sha256:cfg", mediaType := REGULAR_BLOB }],
    tags := [{ name := "latest", taggedManifest := "sha256:old" }],
    versions := [[ContentUnit.tag "latest" "sha256:old"]] }

/-! Helper lemmas: frame properties of the save operations, membership in
`addAll`, and characterizations used by the claim theorems. -/

@[simp] theorem saveArtifact_blobs (db : DB) (a : Artifact) :
    (saveArtifact db a).1.blobs = db.blobs := by
  unfold saveArtifact; split <;> rfl

@[simp] theorem saveArtifact_manifests (db : DB) (a : Artifact) :
    (saveArtifact db a).1.manifests = db.manifests := by
  unfold saveArtifact; split <;> rfl

@[simp] theorem saveArtifact_tags (db : DB) (a : Artifact) :
    (saveArtifact db a).1.tags = db.tags := by
  unfold saveArtifact; split <;> rfl

@[simp] theorem saveArtifact_versions (db : DB) (a : Artifact) :
    (saveArtifact db a).1.versions = db.versions := by
  unfold saveArtifact; split <;> rfl

@[simp] theorem saveArtifact_blobManifests (db : DB) (a : Artifact) :
    (saveArtifact db a).1.blobManifests = db.blobManifests := by
  unfold saveArtifact; split <;> rfl

@[simp] theorem saveArtifact_uploads (db : DB) (a : Artifact) :
    (saveArtifact db a).1.uploads = db.uploads := by
  unfold saveArtifact; split <;> rfl

@[simp] theorem saveArtifact_contentArtifacts (db : DB) (a : Artifact) :
    (saveArtifact db a).1.contentArtifacts = db.contentArtifacts := by
  unfold saveArtifact; split <;> rfl

@[simp] theorem saveBlob_artifacts (db : DB) (b : Blob) :
    (saveBlob db b).1.artifacts = db.artifacts := by
  unfold saveBlob; split <;> rfl

@[simp] theorem saveBlob_manifests (db : DB) (b : Blob) :
    (saveBlob db b).1.manifests = db.manifests := by
  unfold saveBlob; split <;> rfl

@[simp] theorem saveBlob_tags (db : DB) (b : Blob) :
    (saveBlob db b).1.tags = db.tags := by
  unfold saveBlob; split <;> rfl

@[simp] theorem saveBlob_versions (db : DB) (b : Blob) :
    (saveBlob db b).1.versions = db.versions := by
  unfold saveBlob; split <;> rfl

@[simp] theorem saveBlob_blobManifests (db : DB) (b : Blob) :
    (saveBlob db b).1.blobManifests = db.blobManifests := by
  unfold saveBlob; split <;> rfl

@[simp] theorem saveBlob_uploads (db : DB) (b : Blob) :
    (saveBlob db b).1.uploads = db.uploads := by
  unfold saveBlob; split <;> rfl

@[simp] theorem saveBlob_contentArtifacts (db : DB) (b : Blob) :
    (saveBlob db b).1.contentArtifacts = db.contentArtifacts := by
  unfold saveBlob; split <;> rfl

@[simp] theorem saveManifest_artifacts (db : DB) (m : Manifest) :
    (saveManifest db m).1.artifacts = db.artifacts := by
  unfold saveManifest; split <;> rfl

@[simp] theorem saveManifest_blobs (db : DB) (m : Manifest) :
    (saveManifest db m).1.blobs = db.blobs := by
  unfold saveManifest; split <;> rfl

@[simp] theorem saveManifest_tags (db : DB) (m : Manifest) :
    (saveManifest db m).1.tags = db.tags := by
  unfold saveManifest; split <;> rfl

@[simp] theorem saveManifest_versions (db : DB) (m : Manifest) :
    (saveManifest db m).1.versions = db.versions := by
  unfold saveManifest; split <;> rfl

@[simp] theorem saveManifest_blobManifests (db : DB) (m : Manifest) :
    (saveManifest db m).1.blobManifests = db.blobManifests := by
  unfold saveManifest; split <;> rfl

@[simp] theorem saveManifest_uploads (db : DB) (m : Manifest) :
    (saveManifest db m).1.uploads = db.uploads := by
  unfold saveManifest; split <;> rfl

@[simp] theorem saveManifest_contentArtifacts (db : DB) (m : Manifest) :
    (saveManifest db m).1.contentArtifacts = db.contentArtifacts := by
  unfold saveManifest; split <;> rfl

@[simp] theorem saveTag_artifacts (db : DB) (t : Tag) :
    (saveTag db t).artifacts = db.artifacts := by
  unfold saveTag; split <;> rfl

@[simp] theorem saveTag_blobs (db : DB) (t : Tag) :
    (saveTag db t).blobs = db.blobs := by
  unfold saveTag; split <;> rfl

@[simp] theorem saveTag_manifests (db : DB) (t : Tag) :
    (saveTag db t).manifests = db.manifests := by
  unfold saveTag; split <;> rfl

@[simp] theorem saveTag_versions (db : DB) (t : Tag) :
    (saveTag db t).versions = db.versions := by
  unfold saveTag; split <;> rfl

@[simp] theorem saveTag_blobManifests (db : DB) (t : Tag) :
    (saveTag db t).blobManifests = db.blobManifests := by
  unfold saveTag; split <;> rfl

@[simp] theorem saveTag_uploads (db : DB) (t : Tag) :
    (saveTag db t).uploads = db.uploads := by
  unfold saveTag; split <;> rfl

@[simp] theorem saveTag_contentArtifacts (db : DB) (t : Tag) :
    (saveTag db t).contentArtifacts = db.contentArtifacts := by
  unfold saveTag; split <;> rfl

@[simp] theorem saveContentArtifact_artifacts (db : DB) (ca : ContentArtifact) :
    (saveContentArtifact db ca).artifacts = db.artifacts := by
  unfold saveContentArtifact; split <;> rfl

@[simp] theorem saveContentArtifact_blobs (db : DB) (ca : ContentArtifact) :
    (saveContentArtifact db ca).blobs = db.blobs := by
  unfold saveContentArtifact; split <;> rfl

@[simp] theorem saveContentArtifact_manifests (db : DB) (ca : ContentArtifact) :
    (saveContentArtifact db ca).manifests = db.manifests := by
  unfold saveContentArtifact; split <;> rfl

@[simp] theorem saveContentArtifact_tags (db : DB) (ca : ContentArtifact) :
    (saveContentArtifact db ca).tags = db.tags := by
  unfold saveContentArtifact; split <;> rfl

@[simp] theorem saveContentArtifact_versions (db : DB) (ca : ContentArtifact) :
    (saveContentArtifact db ca).versions = db.versions := by
  unfold saveContentArtifact; split <;> rfl

@[simp] theorem saveContentArtifact_blobManifests (db : DB) (ca : ContentArtifact) :
    (saveContentArtifact db ca).blobManifests = db.blobManifests := by
  unfold saveContentArtifact; split <;> rfl

@[simp] theorem saveContentArtifact_uploads (db : DB) (ca : ContentArtifact) :
    (saveContentArtifact db ca).uploads = db.uploads := by
  unfold saveContentArtifact; split <;> rfl

@[simp] theorem publishVersion_artifacts (db : DB) (c : List ContentUnit) :
    (publishVersion db c).artifacts = db.artifacts := rfl

@[simp] theorem publishVersion_blobs (db : DB) (c : List ContentUnit) :
    (publishVersion db c).blobs = db.blobs := rfl

@[simp] theorem publishVersion_manifests (db : DB) (c : List ContentUnit) :
    (publishVersion db c).manifests = db.manifests := rfl

@[simp] theorem publishVersion_tags (db : DB) (c : List ContentUnit) :
    (publishVersion db c).tags = db.tags := rfl

@[simp] theorem publishVersion_blobManifests (db : DB) (c : List ContentUnit) :
    (publishVersion db c).blobManifests = db.blobManifests := rfl

@[simp] theorem publishVersion_uploads (db : DB) (c : List ContentUnit) :
    (publishVersion db c).uploads = db.uploads := rfl

@[simp] theorem publishVersion_contentArtifacts (db : DB) (c : List ContentUnit) :
    (publishVersion db c).contentArtifacts = db.contentArtifacts := rfl

@[simp] theorem publishVersion_versions (db : DB) (c : List ContentUnit) :
    (publishVersion db c).versions = c :: db.versions := rfl

@[simp] theorem latestContent_publishVersion (db : DB) (c : List ContentUnit) :
    latestContent (publishVersion db c) = c := rfl

theorem saveArtifact_key (db : DB) (a : Artifact) :
    (saveArtifact db a).2.sha256 = a.sha256 := by
  unfold saveArtifact
  split
  case h_1 existing heq =>
    have := List.find?_some heq
    simpa using this
  case h_2 => rfl

theorem saveBlob_key (db : DB) (b : Blob) :
    (saveBlob db b).2.digest = b.digest := by
  unfold saveBlob
  split
  case h_1 existing heq =>
    have := List.find?_some heq
    simpa using this
  case h_2 => rfl

theorem saveManifest_key (db : DB) (m : Manifest) :
    (saveManifest db m).2.digest = m.digest := by
  unfold saveManifest
  split
  case h_1 existing heq =>
    have := List.find?_some heq
    simpa using this
  case h_2 => rfl

theorem saveBlob_mem (db : DB) (b : Blob) :
    (saveBlob db b).2 ∈ (saveBlob db b).1.blobs := by
  unfold saveBlob
  split
  case h_1 existing heq => exact List.mem_of_find?_eq_some heq
  case h_2 => simp

theorem saveManifest_mem (db : DB) (m : Manifest) :
    (saveManifest db m).2 ∈ (saveManifest db m).1.manifests := by
  unfold saveManifest
  split
  case h_1 existing heq => exact List.mem_of_find?_eq_some heq
  case h_2 => simp

theorem saveManifest_grow (db : DB) (m x : Manifest) (hx : x ∈ db.manifests) :
    x ∈ (saveManifest db m).1.manifests := by
  unfold saveManifest
  split
  case h_1 => exact hx
  case h_2 => simp [hx]

theorem saveTag_mem (db : DB) (t : Tag) : t ∈ (saveTag db t).tags := by
  unfold saveTag
  split
  case isTrue h =>
    rw [List.any_eq_true] at h
    rcases h with ⟨x, hx, hp⟩
    simp only [decide_eq_true_eq] at hp
    have : x = t := by
      cases x; cases t
      simp_all
    exact this ▸ hx
  case isFalse => simp

theorem saveTag_grow (db : DB) (t x : Tag) (hx : x ∈ db.tags) :
    x ∈ (saveTag db t).tags := by
  unfold saveTag
  split
  case isTrue => exact hx
  case isFalse => simp [hx]

theorem mem_insertNew {α : Type} [DecidableEq α] (acc : List α) (x y : α) :
    y ∈ insertNew acc x ↔ y ∈ acc ∨ y = x := by
  unfold insertNew
  split
  case isTrue h =>
    constructor
    · exact fun hy => Or.inl hy
    · rintro (hy | rfl)
      · exact hy
      · exact h
  case isFalse h => simp

theorem mem_addAll {α : Type} [DecidableEq α] (xs : List α) (acc : List α) (y : α) :
    y ∈ addAll acc xs ↔ y ∈ acc ∨ y ∈ xs := by
  induction xs generalizing acc with
  | nil => simp [addAll]
  | cons x rest ih =>
    show y ∈ addAll (insertNew acc x) rest ↔ _
    rw [ih, mem_insertNew]
    simp only [List.mem_cons]
    tauto

theorem addAll_of_all_mem {α : Type} [DecidableEq α] (xs : List α) (acc : List α)
    (h : ∀ x ∈ xs, x ∈ acc) : addAll acc xs = acc := by
  induction xs generalizing acc with
  | nil => rfl
  | cons x rest ih =>
    show addAll (insertNew acc x) rest = acc
    have hx : insertNew acc x = acc := by
      unfold insertNew
      simp [h x (by simp)]
    rw [hx]
    exact ih acc (fun y hy => h y (by simp [hy]))

theorem addAll_all_eq {α : Type} [DecidableEq α] (xs : List α) (acc : List α) (v : α)
    (hall : ∀ x ∈ xs, x = v) (hne : xs ≠ []) (hnotin : v ∉ acc) :
    addAll acc xs = acc ++ [v] := by
  cases xs with
  | nil => exact absurd rfl hne
  | cons x rest =>
    have hx : x = v := hall x (by simp)
    subst hx
    show addAll (insertNew acc x) rest = acc ++ [x]
    have h1 : insertNew acc x = acc ++ [x] := by
      unfold insertNew
      simp [hnotin]
    rw [h1]
    exact addAll_of_all_mem rest (acc ++ [x])
      (fun y hy => by simp [hall y (by simp [hy])])

theorem addAll_append {α : Type} [DecidableEq α] (xs : List α) (acc : List α) :
    ∃ extra, addAll acc xs = acc ++ extra ∧ ∀ x ∈ extra, x ∈ xs := by
  induction xs generalizing acc with
  | nil => exact ⟨[], by simp [addAll], by simp⟩
  | cons x rest ih =>
    have hstep : addAll acc (x :: rest) = addAll (insertNew acc x) rest := rfl
    by_cases hx : x ∈ acc
    · have h1 : insertNew acc x = acc := by unfold insertNew; simp [hx]
      rcases ih acc with ⟨extra, heq, hmem⟩
      exact ⟨extra, by rw [hstep, h1, heq], fun y hy => by simp [hmem y hy]⟩
    · have h1 : insertNew acc x = acc ++ [x] := by unfold insertNew; simp [hx]
      rcases ih (acc ++ [x]) with ⟨extra, heq, hmem⟩
      refine ⟨x :: extra, ?_, ?_⟩
      · rw [hstep, h1, heq, List.append_assoc]
        rfl
      · intro y hy
        rcases List.mem_cons.mp hy with rfl | hy
        · simp
        · simp [hmem y hy]

/-- C1: a finalization (`BlobUploads.put`) whose asserted digest does not
match the sha256 accumulated over the uploaded bytes — the source compares the
accumulator's hex value with the asserted string minus its first 7 characters
(see C10) — fails with `DigestMismatch` and leaves the database exactly as it
was: no Blob row and no Artifact row is created, and the Upload row is
preserved unconverted, so the caller may retry or abandon. -/
theorem blobUploads_put_digest_mismatch (sha256hex : List Nat → String) (db : DB)
    (pk : Nat) (digest : String) (upload : Upload)
    (hfind : db.uploads.find? (fun u => decide (u.pk = pk)) = some upload)
    (hmismatch : sha256hex upload.data ≠ digest.drop 7) :
    BlobUploads.put sha256hex db pk digest = (db, .error .digestMismatch) := by
  unfold BlobUploads.put
  rw [hfind]
  simp [hmismatch]

/-- Witness for C1: with the hash standing at "aa" and asserted digest
"sha256:bb", finalizing the one pending upload fails with `DigestMismatch`
and the database (upload included) is unchanged. -/
theorem blobUploads_put_digest_mismatch_witness :
    BlobUploads.put (fun _ => "aa") uploadDB 0 "sha256:bb"
      = (uploadDB, .error .digestMismatch) :=
  blobUploads_put_digest_mismatch (fun _ => "aa") uploadDB 0 "sha256:bb"
    { pk := 0, offset := 0, data := [] } (by decide) (by decide)

/-- C10: `BlobUploads.put` drops the first 7 characters of the asserted digest
unconditionally, never checking that they are the literal "sha256:"; for every
asserted string whose characters from index 7 onward equal the computed hex
digest, finalization succeeds and the Blob it creates, stores and publishes in
the new repository version is keyed by the raw asserted string. -/
theorem blobUploads_put_raw_digest_key (sha256hex : List Nat → String) (db : DB)
    (pk : Nat) (digest : String) (upload : Upload)
    (hfind : db.uploads.find? (fun u => decide (u.pk = pk)) = some upload)
    (hmatch : sha256hex upload.data = digest.drop 7) :
    ∃ b : Blob,
      (BlobUploads.put sha256hex db pk digest).2 = .ok b ∧
      b.digest = digest ∧
      b ∈ (BlobUploads.put sha256hex db pk digest).1.blobs ∧
      ContentUnit.blob digest ∈ latestContent (BlobUploads.put sha256hex db pk digest).1 := by
  unfold BlobUploads.put
  simp only [hfind, hmatch, if_pos rfl]
  refine ⟨_, rfl, saveBlob_key _ _, ?_, ?_⟩
  · simpa using saveBlob_mem _ _
  · simp [addUnits, latestContent, mem_addAll, saveBlob_key]

/-- Witness for C10: the asserted string "XXXXXXXbeef" does not start with
"sha256:", yet finalization succeeds because its characters from index 7 on
equal the computed digest "beef", and the resulting Blob is keyed by the raw
string "XXXXXXXbeef". -/
theorem blobUploads_put_raw_digest_key_witness :
    ("XXXXXXXbeef".take 7 ≠ "sha256:") ∧
    ∃ b : Blob,
      (BlobUploads.put (fun _ => "beef") uploadDB 0 "XXXXXXXbeef").2 = .ok b ∧
      b.digest = "XXXXXXXbeef" ∧
      b ∈ (BlobUploads.put (fun _ => "beef") uploadDB 0 "XXXXXXXbeef").1.blobs ∧
      ContentUnit.blob "XXXXXXXbeef"
        ∈ latestContent (BlobUploads.put (fun _ => "beef") uploadDB 0 "XXXXXXXbeef").1 :=
  ⟨by decide,
   blobUploads_put_raw_digest_key (fun _ => "beef") uploadDB 0 "XXXXXXXbeef"
     { pk := 0, offset := 0, data := [] } (by decide) (by decide)⟩

@[simp] theorem receive_artifact_blobs (sha256hex : List Nat → String) (db : DB)
    (body : List Nat) :
    (Manifests.receive_artifact sha256hex db body).1.blobs = db.blobs := by
  unfold Manifests.receive_artifact; simp

@[simp] theorem receive_artifact_manifests (sha256hex : List Nat → String) (db : DB)
    (body : List Nat) :
    (Manifests.receive_artifact sha256hex db body).1.manifests = db.manifests := by
  unfold Manifests.receive_artifact; simp

@[simp] theorem receive_artifact_tags (sha256hex : List Nat → String) (db : DB)
    (body : List Nat) :
    (Manifests.receive_artifact sha256hex db body).1.tags = db.tags := by
  unfold Manifests.receive_artifact; simp

@[simp] theorem receive_artifact_versions (sha256hex : List Nat → String) (db : DB)
    (body : List Nat) :
    (Manifests.receive_artifact sha256hex db body).1.versions = db.versions := by
  unfold Manifests.receive_artifact; simp

@[simp] theorem receive_artifact_blobManifests (sha256hex : List Nat → String) (db : DB)
    (body : List Nat) :
    (Manifests.receive_artifact sha256hex db body).1.blobManifests = db.blobManifests := by
  unfold Manifests.receive_artifact; simp

theorem saveArtifact_existing (db : DB) (a : Artifact)
    (hex : ∃ x ∈ db.artifacts, x.sha256 = a.sha256) :
    (saveArtifact db a).1 = db ∧ (saveArtifact db a).2 ∈ db.artifacts := by
  unfold saveArtifact
  rcases hfound : db.artifacts.find? (fun x => decide (x.sha256 = a.sha256)) with _ | y
  · exfalso
    rw [List.find?_eq_none] at hfound
    rcases hex with ⟨x, hx, he⟩
    exact hfound x hx (by simp [he])
  · simp only [hfound]
    exact ⟨by simp, List.mem_of_find?_eq_some hfound⟩

theorem saveArtifact_fresh (db : DB) (a : Artifact)
    (hall : ∀ x ∈ db.artifacts, x.sha256 ≠ a.sha256) :
    saveArtifact db a = ({ db with artifacts := db.artifacts ++ [a] }, a) := by
  unfold saveArtifact
  have hnone : db.artifacts.find? (fun x => decide (x.sha256 = a.sha256)) = none := by
    rw [List.find?_eq_none]
    intro x hx
    simp [hall x hx]
  simp only [hnone]

theorem saveBlob_existing (db : DB) (b : Blob)
    (hex : ∃ x ∈ db.blobs, x.digest = b.digest) :
    (saveBlob db b).1 = db ∧ (saveBlob db b).2 ∈ db.blobs := by
  unfold saveBlob
  rcases hfound : db.blobs.find? (fun x => decide (x.digest = b.digest)) with _ | y
  · exfalso
    rw [List.find?_eq_none] at hfound
    rcases hex with ⟨x, hx, he⟩
    exact hfound x hx (by simp [he])
  · simp only [hfound]
    exact ⟨by simp, List.mem_of_find?_eq_some hfound⟩

theorem saveBlob_fresh (db : DB) (b : Blob)
    (hall : ∀ x ∈ db.blobs, x.digest ≠ b.digest) :
    saveBlob db b = ({ db with blobs := db.blobs ++ [b] }, b) := by
  unfold saveBlob
  have hnone : db.blobs.find? (fun x => decide (x.digest = b.digest)) = none := by
    rw [List.find?_eq_none]
    intro x hx
    simp [hall x hx]
  simp only [hnone]

theorem saveManifest_existing (db : DB) (m : Manifest)
    (hex : ∃ x ∈ db.manifests, x.digest = m.digest) :
    (saveManifest db m).1 = db ∧ (saveManifest db m).2 ∈ db.manifests := by
  unfold saveManifest
  rcases hfound : db.manifests.find? (fun x => decide (x.digest = m.digest)) with _ | y
  · exfalso
    rw [List.find?_eq_none] at hfound
    rcases hex with ⟨x, hx, he⟩
    exact hfound x hx (by simp [he])
  · simp only [hfound]
    exact ⟨by simp, List.mem_of_find?_eq_some hfound⟩

theorem saveManifest_fresh (db : DB) (m : Manifest)
    (hall : ∀ x ∈ db.manifests, x.digest ≠ m.digest) :
    saveManifest db m = ({ db with manifests := db.manifests ++ [m] }, m) := by
  unfold saveManifest
  have hnone : db.manifests.find? (fun x => decide (x.digest = m.digest)) = none := by
    rw [List.find?_eq_none]
    intro x hx
    simp [hall x hx]
  simp only [hnone]

/-- C4: creating a content-addressed entity whose key already exists —
Artifact by sha256, Blob by digest, Manifest by digest — never propagates the
uniqueness violation: the save recovers by fetching and returning the
pre-existing row with the same key and leaves the database unchanged
(idempotent); with no such row the fresh row is inserted and returned. -/
theorem duplicate_key_recovery (db : DB) (a : Artifact) (b : Blob) (m : Manifest) :
    ((∃ x ∈ db.artifacts, x.sha256 = a.sha256) →
      (saveArtifact db a).1 = db ∧ (saveArtifact db a).2 ∈ db.artifacts ∧
      (saveArtifact db a).2.sha256 = a.sha256) ∧
    ((∀ x ∈ db.artifacts, x.sha256 ≠ a.sha256) →
      saveArtifact db a = ({ db with artifacts := db.artifacts ++ [a] }, a)) ∧
    ((∃ x ∈ db.blobs, x.digest = b.digest) →
      (saveBlob db b).1 = db ∧ (saveBlob db b).2 ∈ db.blobs ∧
      (saveBlob db b).2.digest = b.digest) ∧
    ((∀ x ∈ db.blobs, x.digest ≠ b.digest) →
      saveBlob db b = ({ db with blobs := db.blobs ++ [b] }, b)) ∧
    ((∃ x ∈ db.manifests, x.digest = m.digest) →
      (saveManifest db m).1 = db ∧ (saveManifest db m).2 ∈ db.manifests ∧
      (saveManifest db m).2.digest = m.digest) ∧
    ((∀ x ∈ db.manifests, x.digest ≠ m.digest) →
      saveManifest db m = ({ db with manifests := db.manifests ++ [m] }, m)) :=
  ⟨fun hex => ⟨(saveArtifact_existing db a hex).1, (saveArtifact_existing db a hex).2,
      saveArtifact_key db a⟩,
   saveArtifact_fresh db a,
   fun hex => ⟨(saveBlob_existing db b hex).1, (saveBlob_existing db b hex).2,
      saveBlob_key db b⟩,
   saveBlob_fresh db b,
   fun hex => ⟨(saveManifest_existing db m hex).1, (saveManifest_existing db m hex).2,
      saveManifest_key db m⟩,
   saveManifest_fresh db m⟩

/-- Witness for C4: saving an artifact whose sha256 "aa" already exists in the
store returns the pre-existing row and changes nothing. -/
theorem duplicate_key_recovery_witness :
    (saveArtifact artifactDB { sha256 := "aa", size := 7 }).1 = artifactDB ∧
    (saveArtifact artifactDB { sha256 := "aa", size := 7 }).2 ∈ artifactDB.artifacts ∧
    (saveArtifact artifactDB { sha256 := "aa", size := 7 }).2.sha256 = "aa" :=
  (duplicate_key_recovery artifactDB { sha256 := "aa", size := 7 }
      { digest := "d", mediaType := "m" }
      { digest := "d", schemaVersion := 2, mediaType := "m", configBlob := "c" }).1
    ⟨{ sha256 := "aa", size := 3 }, by decide, by decide⟩

/-- C7 (code bug): the whole-body path of `BlobUploads.partial_update` — a
digest query parameter and no Content-Range header — assigns `start = 0` and
`end = chunk.size - 1` but never the local `chunk_size`, so evaluating the
call `upload.append_chunk(chunk, chunk_size=chunk_size)` raises Python's
UnboundLocalError instead of appending the whole body as a single chunk: at
the pending upload with offset 0 and the three-byte body the handler crashes
and no byte is appended. -/
theorem whole_body_upload_unbound_chunk_size :
    BlobUploads.partial_update uploadDB 0 none true [1, 2, 3]
      = (uploadDB, .error .unboundLocalChunkSize) := by decide

/-- C3: appending a chunk under a parsed Content-Range header: when the
declared start offset differs from the Upload's current offset the append
fails with `OffsetMismatch` and the whole database — the Upload's offset,
stored bytes and so its digest accumulators included — is unchanged; when it
equals the current offset the chunk bytes are appended and the offset
advances by the chunk length. -/
theorem partial_update_offset_check (db : DB) (pk : Nat) (cr : String)
    (hasDigest : Bool) (chunk : List Nat) (s e : Nat) (upload : Upload)
    (hparse : parseContentRange cr = some (s, e))
    (hfind : db.uploads.find? (fun u => decide (u.pk = pk)) = some upload) :
    (upload.offset ≠ s →
      BlobUploads.partial_update db pk (some cr) hasDigest chunk
        = (db, .error .offsetMismatch)) ∧
    (upload.offset = s →
      BlobUploads.partial_update db pk (some cr) hasDigest chunk
        = ({ db with uploads := db.uploads.map (fun u => if u.pk = pk then appendChunk upload chunk else u) },
           .ok (appendChunk upload chunk)) ∧
      (appendChunk upload chunk).data = upload.data ++ chunk ∧
      (appendChunk upload chunk).offset = upload.offset + chunk.length) := by
  unfold BlobUploads.partial_update
  simp only [Option.isNone_some, Bool.false_and, Option.getD_some, hparse, hfind,
    Bool.false_eq_true, if_false]
  constructor
  · intro hne
    rw [if_pos hne]
  · intro heq
    rw [if_neg (by simp [heq])]
    exact ⟨rfl, rfl, rfl⟩

/-- Witness for C3: appending three bytes at the declared range 0-2 to the
upload at offset 0 succeeds, stores the bytes and moves the offset to 3. -/
theorem partial_update_offset_check_witness :
    BlobUploads.partial_update uploadDB 0 (some "0-2") false [9, 9, 9]
      = ({ uploadDB with uploads := uploadDB.uploads.map (fun u => if u.pk = 0 then appendChunk { pk := 0, offset := 0, data := [] } [9, 9, 9] else u) },
         .ok (appendChunk { pk := 0, offset := 0, data := [] } [9, 9, 9])) ∧
    (appendChunk { pk := 0, offset := 0, data := [] } [9, 9, 9]).data = [] ++ [9, 9, 9] ∧
    (appendChunk { pk := 0, offset := 0, data := [] } [9, 9, 9]).offset = 0 + 3 :=
  (partial_update_offset_check uploadDB 0 "0-2" false [9, 9, 9] 0 2
    { pk := 0, offset := 0, data := [] } (by decide) (by decide)).2 (by decide)

/-- C9 counterexample: the sentinel is not special-cased before the content
lookups — the loop resolves earlier units first.  With a resolver that fails
on "u", submitting ["u", "*"] does not enqueue the sentinel payload ["*"]:
the lookup of "u" 404s the request. -/
theorem remove_sentinel_counterexample :
    ContainerRepositoryViewSet.remove (fun _ => none) (some ["u", "*"])
      = .error .notFound ∧
    ContainerRepositoryViewSet.remove (fun _ => none) (some ["u", "*"])
      ≠ .ok ["*"] := by decide

/-- C9 (amended): when every unit before the first "*" resolves, the enqueued
removal receives exactly the sentinel ["*"] — whatever follows the sentinel
is never resolved — and executing the removal task on the sentinel publishes
a new repository version with empty content, regardless of the repository's
current size.  Units preceding the sentinel are still looked up, and a
failing lookup there fails the request (see the counterexample). -/
theorem remove_sentinel_amended (resolve : String → Option String)
    (pre post : List String) (db : DB)
    (hpre : ∀ u ∈ pre, u ≠ "*" ∧ (resolve u).isSome) :
    ContainerRepositoryViewSet.remove resolve (some (pre ++ "*" :: post)) = .ok ["*"] ∧
    latestContent (recursive_remove_content db ["*"]) = [] ∧
    (recursive_remove_content db ["*"]).versions = [] :: db.versions := by
  refine ⟨?_, ?_, ?_⟩
  · show removeLoop resolve (pre ++ "*" :: post) [] = .ok ["*"]
    have aux : ∀ (l : List String), (∀ u ∈ l, u ≠ "*" ∧ (resolve u).isSome) →
        ∀ acc, removeLoop resolve (l ++ "*" :: post) acc = .ok ["*"] := by
      intro l
      induction l with
      | nil =>
        intro _ acc
        simp [removeLoop]
      | cons u rest ih =>
        intro h acc
        have hu := h u (by simp)
        have hrest : ∀ x ∈ rest, x ≠ "*" ∧ (resolve x).isSome :=
          fun x hx => h x (List.mem_cons_of_mem u hx)
        rcases Option.isSome_iff_exists.mp hu.2 with ⟨v, hv⟩
        show removeLoop resolve (u :: (rest ++ "*" :: post)) acc = .ok ["*"]
        simp only [removeLoop, if_neg hu.1, hv]
        exact ih hrest (v :: acc)
    exact aux pre hpre []
  · simp [recursive_remove_content]
  · simp [recursive_remove_content]

/-- Witness for C9 (amended): ["a", "*", "zz"] with "a" resolving enqueues
exactly ["*"] even though "zz" never resolves, and running the sentinel
removal on a non-empty repository publishes an empty version. -/
theorem remove_sentinel_amended_witness :
    ContainerRepositoryViewSet.remove (fun u => if u = "a" then some "1" else none)
        (some (["a"] ++ "*" :: ["zz"])) = .ok ["*"] ∧
    latestContent (recursive_remove_content configBlobDB ["*"]) = [] ∧
    (recursive_remove_content configBlobDB ["*"]).versions = [] :: configBlobDB.versions :=
  remove_sentinel_amended (fun u => if u = "a" then some "1" else none)
    ["a"] ["zz"] configBlobDB (by decide)

theorem putResolved_digest (db1 : DB) (a : Artifact) (doc : ManifestDoc) (cb : Blob)
    (pk mt : String) :
    (Manifests.putResolved db1 a doc cb pk mt).2.digest = "sha256:" ++ a.sha256 := by
  unfold Manifests.putResolved
  exact saveManifest_key _ _

theorem putResolved_mem (db1 : DB) (a : Artifact) (doc : ManifestDoc) (cb : Blob)
    (pk mt : String) :
    (Manifests.putResolved db1 a doc cb pk mt).2
      ∈ (Manifests.putResolved db1 a doc cb pk mt).1.manifests := by
  simp only [Manifests.putResolved, publishVersion_manifests, saveTag_manifests,
    saveContentArtifact_manifests]
  exact saveManifest_mem _ _

theorem putResolved_blobManifests (db1 : DB) (a : Artifact) (doc : ManifestDoc)
    (cb : Blob) (pk mt : String) :
    (Manifests.putResolved db1 a doc cb pk mt).1.blobManifests
      = addAll db1.blobManifests
          ((db1.blobs.filter (fun b => decide (b.digest ∈ doc.layers))).map
            (fun b => ((Manifests.putResolved db1 a doc cb pk mt).2.digest, b.digest))) := by
  simp only [Manifests.putResolved, publishVersion_blobManifests, saveTag_blobManifests,
    saveContentArtifact_blobs, saveContentArtifact_blobManifests, saveManifest_blobs,
    saveManifest_blobManifests]

/-- C2: ingesting a manifest whose config digest resolves to no pushed Blob
fails with `UnresolvedReference`, and afterwards no Manifest row, no Tag row,
no through-table link and no new repository version is visible — the aborted
ingestion publishes none of its content (the streamed Artifact, which the
claim does not cover, is the request's only trace). -/
theorem manifests_put_unresolved_config (sha256hex : List Nat → String)
    (jsonLoads : List Nat → ManifestDoc) (db : DB) (pk : String)
    (body : List Nat) (mediaType : String)
    (hmiss : ∀ b ∈ db.blobs, b.digest ≠ (jsonLoads body).config) :
    (Manifests.put sha256hex jsonLoads db pk body mediaType).2
        = .error .unresolvedReference ∧
    (Manifests.put sha256hex jsonLoads db pk body mediaType).1.manifests = db.manifests ∧
    (Manifests.put sha256hex jsonLoads db pk body mediaType).1.tags = db.tags ∧
    (Manifests.put sha256hex jsonLoads db pk body mediaType).1.blobManifests
        = db.blobManifests ∧
    (Manifests.put sha256hex jsonLoads db pk body mediaType).1.versions = db.versions := by
  have hnone : (Manifests.receive_artifact sha256hex db body).1.blobs.find?
      (fun b => decide (b.digest = (jsonLoads body).config)) = none := by
    rw [receive_artifact_blobs, List.find?_eq_none]
    intro x hx
    simp [hmiss x hx]
  simp only [Manifests.put, hnone]
  simp

/-- Witness for C2: a manifest naming the never-pushed config digest
"missing" aborts with `UnresolvedReference` and leaves manifests, tags,
links and versions untouched. -/
theorem manifests_put_unresolved_config_witness :
    (Manifests.put (fun _ => "aa") (fun _ => ⟨"missing", []⟩) configBlobDB
        "latest" [1] "mt").2 = .error .unresolvedReference ∧
    (Manifests.put (fun _ => "aa") (fun _ => ⟨"missing", []⟩) configBlobDB
        "latest" [1] "mt").1.manifests = configBlobDB.manifests ∧
    (Manifests.put (fun _ => "aa") (fun _ => ⟨"missing", []⟩) configBlobDB
        "latest" [1] "mt").1.tags = configBlobDB.tags ∧
    (Manifests.put (fun _ => "aa") (fun _ => ⟨"missing", []⟩) configBlobDB
        "latest" [1] "mt").1.blobManifests = configBlobDB.blobManifests ∧
    (Manifests.put (fun _ => "aa") (fun _ => ⟨"missing", []⟩) configBlobDB
        "latest" [1] "mt").1.versions = configBlobDB.versions :=
  manifests_put_unresolved_config (fun _ => "aa") (fun _ => ⟨"missing", []⟩)
    configBlobDB "latest" [1] "mt" (by decide)

/-- C8: once the config Blob resolves, ingestion succeeds whatever the layers
list holds: layer digests with no Blob row are silently skipped — the
Manifest row is still created, and the through-table links it exactly to the
layer digests that do resolve to a Blob (existing links kept, duplicates
ignored); no unresolved layer digest ever fails the ingestion. -/
theorem manifests_put_skips_unresolved_layers (sha256hex : List Nat → String)
    (jsonLoads : List Nat → ManifestDoc) (db : DB) (pk : String)
    (body : List Nat) (mediaType : String) (cb : Blob)
    (hconfig : db.blobs.find? (fun b => decide (b.digest = (jsonLoads body).config))
        = some cb) :
    ∃ m : Manifest,
      (Manifests.put sha256hex jsonLoads db pk body mediaType).2 = .ok m ∧
      m ∈ (Manifests.put sha256hex jsonLoads db pk body mediaType).1.manifests ∧
      ∀ d : String,
        ((m.digest, d) ∈ (Manifests.put sha256hex jsonLoads db pk body mediaType).1.blobManifests
          ↔ ((m.digest, d) ∈ db.blobManifests ∨
              (d ∈ (jsonLoads body).layers ∧ ∃ b ∈ db.blobs, b.digest = d))) := by
  have hconfig1 : (Manifests.receive_artifact sha256hex db body).1.blobs.find?
      (fun b => decide (b.digest = (jsonLoads body).config)) = some cb := by
    rw [receive_artifact_blobs]
    exact hconfig
  simp only [Manifests.put, hconfig1]
  refine ⟨_, rfl, putResolved_mem _ _ _ _ _ _, ?_⟩
  intro d
  rw [putResolved_blobManifests, mem_addAll]
  simp only [receive_artifact_blobManifests, receive_artifact_blobs]
  constructor
  · rintro (hl | hr)
    · exact Or.inl hl
    · right
      simp only [List.mem_map, List.mem_filter, decide_eq_true_eq] at hr
      rcases hr with ⟨b, ⟨hb, hlay⟩, heq⟩
      have hd : b.digest = d := congrArg Prod.snd heq
      exact ⟨hd ▸ hlay, b, hb, hd⟩
  · rintro (hl | ⟨hlay, b, hb, hd⟩)
    · exact Or.inl hl
    · right
      simp only [List.mem_map, List.mem_filter, decide_eq_true_eq]
      exact ⟨b, ⟨hb, by rw [hd]; exact hlay⟩, by rw [hd]⟩

/-- Witness for C8: a manifest listing the pushed layer "sha256:cfg" and the
never-pushed layer "nolayer" ingests successfully and is linked to exactly
the resolvable layer. -/
theorem manifests_put_skips_unresolved_layers_witness :
    ∃ m : Manifest,
      (Manifests.put (fun _ => "mm") (fun _ => ⟨"sha256:cfg", ["sha256:cfg", "nolayer"]⟩)
          configBlobDB "latest" [1] "mt").2 = .ok m ∧
      m ∈ (Manifests.put (fun _ => "mm") (fun _ => ⟨"sha256:cfg", ["sha256:cfg", "nolayer"]⟩)
          configBlobDB "latest" [1] "mt").1.manifests ∧
      ∀ d : String,
        ((m.digest, d) ∈ (Manifests.put (fun _ => "mm")
            (fun _ => ⟨"sha256:cfg", ["sha256:cfg", "nolayer"]⟩)
            configBlobDB "latest" [1] "mt").1.blobManifests
          ↔ ((m.digest, d) ∈ configBlobDB.blobManifests ∨
              (d ∈ (["sha256:cfg", "nolayer"] : List String) ∧
                ∃ b ∈ configBlobDB.blobs, b.digest = d))) :=
  manifests_put_skips_unresolved_layers (fun _ => "mm")
    (fun _ => ⟨"sha256:cfg", ["sha256:cfg", "nolayer"]⟩) configBlobDB "latest" [1] "mt"
    { digest := "sha256:cfg", mediaType := REGULAR_BLOB } (by decide)

theorem latestContent_eq (db db' : DB) (h : db.versions = db'.versions) :
    latestContent db = latestContent db' := by
  unfold latestContent; rw [h]

theorem putVersionContent_tag_filter (db5 : DB) (n mdigest : String)
    (hrow : ({ name := n, taggedManifest := mdigest } : Tag) ∈ db5.tags)
    (hclosed : ∀ t tm, ContentUnit.tag t tm ∈ latestContent db5 →
      ({ name := t, taggedManifest := tm } : Tag) ∈ db5.tags) :
    (Manifests.putVersionContent db5 n mdigest).filter (isTagNamed n)
      = [ContentUnit.tag n mdigest] := by
  simp only [Manifests.putVersionContent]
  set base := latestContent db5 with hbase
  set us1 := (db5.manifests.filter (fun m => decide (m.digest = mdigest))).map
    (fun m => ContentUnit.manifest m.digest) with hus1
  set us2 := (db5.tags.filter (fun t => decide (t.name = n))).map
    (fun t => ContentUnit.tag t.name t.taggedManifest) with hus2
  set us3 := (db5.tags.filter (fun t => decide (t.name = n ∧ t.taggedManifest = mdigest))).map
    (fun t => ContentUnit.tag t.name t.taggedManifest) with hus3
  have hall3 : ∀ u ∈ us3, u = ContentUnit.tag n mdigest := by
    intro u hu
    rw [hus3] at hu
    simp only [List.mem_map, List.mem_filter, decide_eq_true_eq] at hu
    rcases hu with ⟨t, ⟨ht, hname, htm⟩, rfl⟩
    rw [hname, htm]
  have hmem3 : ContentUnit.tag n mdigest ∈ us3 := by
    rw [hus3]
    simp only [List.mem_map, List.mem_filter, decide_eq_true_eq]
    exact ⟨⟨n, mdigest⟩, ⟨hrow, rfl, rfl⟩, rfl⟩
  have hne3 : us3 ≠ [] := List.ne_nil_of_mem hmem3
  have hmem2 : ContentUnit.tag n mdigest ∈ us2 := by
    rw [hus2]
    simp only [List.mem_map, List.mem_filter, decide_eq_true_eq]
    exact ⟨⟨n, mdigest⟩, ⟨hrow, rfl⟩, rfl⟩
  have hnotc2 : ContentUnit.tag n mdigest ∉ removeUnits (addUnits base us1) us2 := by
    intro hmem
    unfold removeUnits at hmem
    simp only [List.mem_filter, decide_eq_true_eq] at hmem
    exact hmem.2 hmem2
  have hc3 : addUnits (removeUnits (addUnits base us1) us2) us3
      = removeUnits (addUnits base us1) us2 ++ [ContentUnit.tag n mdigest] :=
    addAll_all_eq us3 _ _ hall3 hne3 hnotc2
  rw [hc3, List.filter_append]
  have hfilter2 : (removeUnits (addUnits base us1) us2).filter (isTagNamed n) = [] := by
    rw [List.filter_eq_nil_iff]
    intro u hu
    unfold removeUnits at hu
    simp only [List.mem_filter, decide_eq_true_eq] at hu
    rcases hu with ⟨hu1, hu2⟩
    intro htag
    cases u with
    | blob d => simp [isTagNamed] at htag
    | manifest d => simp [isTagNamed] at htag
    | tag tname tm =>
      have hn : tname = n := by simpa [isTagNamed] using htag
      subst hn
      rcases (mem_addAll us1 base _).mp hu1 with hb | h1
      · have hrowmem := hclosed tname tm hb
        apply hu2
        rw [hus2]
        simp only [List.mem_map, List.mem_filter, decide_eq_true_eq]
        exact ⟨⟨tname, tm⟩, ⟨hrowmem, rfl⟩, rfl⟩
      · rw [hus1] at h1
        simp only [List.mem_map] at h1
        rcases h1 with ⟨m, _, hm⟩
        exact ContentUnit.noConfusion hm
  rw [hfilter2]
  simp [isTagNamed]

theorem putResolved_tag_state (db1 : DB) (a : Artifact) (doc : ManifestDoc) (cb : Blob)
    (n mt : String)
    (hclosed : ∀ t tm, ContentUnit.tag t tm ∈ latestContent db1 →
      ({ name := t, taggedManifest := tm } : Tag) ∈ db1.tags) :
    (Manifests.putResolved db1 a doc cb n mt).1.versions
      = latestContent (Manifests.putResolved db1 a doc cb n mt).1 :: db1.versions ∧
    (latestContent (Manifests.putResolved db1 a doc cb n mt).1).filter (isTagNamed n)
      = [ContentUnit.tag n (Manifests.putResolved db1 a doc cb n mt).2.digest] ∧
    (∀ t ∈ db1.tags, t ∈ (Manifests.putResolved db1 a doc cb n mt).1.tags) := by
  simp only [Manifests.putResolved, publishVersion_versions, latestContent_publishVersion,
    publishVersion_tags]
  refine ⟨?_, ?_, ?_⟩
  · congr 1
    simp
  · apply putVersionContent_tag_filter
    · exact saveTag_mem _ _
    · intro t tm hmem
      rw [latestContent_eq _ db1 (by simp)] at hmem
      have hrow1 := hclosed t tm hmem
      apply saveTag_grow
      simpa using hrow1
  · intro t ht
    apply saveTag_grow
    simpa using ht

/-- C5: re-pushing the tag name `n` against a manifest with a different
digest publishes a new repository version whose content holds exactly one
Tag named `n`, and that Tag points at the newly pushed manifest; the previous
Tag row still exists in the Tag table as a content unit but is not a member
of the new version's content set.  The closure hypothesis states the
referential integrity of the starting version (every Tag unit in the latest
content corresponds to a Tag row). -/
theorem tag_repush_supersedes (sha256hex : List Nat → String)
    (jsonLoads : List Nat → ManifestDoc) (db : DB) (n : String)
    (body : List Nat) (mediaType : String) (dOld : String) (m : Manifest)
    (hclosed : ∀ t tm, ContentUnit.tag t tm ∈ latestContent db →
      ({ name := t, taggedManifest := tm } : Tag) ∈ db.tags)
    (hold : ContentUnit.tag n dOld ∈ latestContent db)
    (hok : (Manifests.put sha256hex jsonLoads db n body mediaType).2 = .ok m)
    (hne : dOld ≠ m.digest) :
    (Manifests.put sha256hex jsonLoads db n body mediaType).1.versions
      = latestContent (Manifests.put sha256hex jsonLoads db n body mediaType).1
          :: db.versions ∧
    (latestContent (Manifests.put sha256hex jsonLoads db n body mediaType).1).filter
        (isTagNamed n) = [ContentUnit.tag n m.digest] ∧
    ({ name := n, taggedManifest := dOld } : Tag)
        ∈ (Manifests.put sha256hex jsonLoads db n body mediaType).1.tags ∧
    ContentUnit.tag n dOld
        ∉ latestContent (Manifests.put sha256hex jsonLoads db n body mediaType).1 := by
  rcases hcfg : (Manifests.receive_artifact sha256hex db body).1.blobs.find?
      (fun b => decide (b.digest = (jsonLoads body).config)) with _ | cb
  · exfalso
    simp only [Manifests.put, hcfg] at hok
    exact Except.noConfusion hok
  · simp only [Manifests.put, hcfg, Except.ok.injEq] at hok ⊢
    subst hok
    have hclosed1 : ∀ t tm,
        ContentUnit.tag t tm ∈ latestContent (Manifests.receive_artifact sha256hex db body).1 →
        ({ name := t, taggedManifest := tm } : Tag)
          ∈ (Manifests.receive_artifact sha256hex db body).1.tags := by
      intro t tm hmem
      rw [latestContent_eq _ db (by simp)] at hmem
      simpa using hclosed t tm hmem
    have hps := putResolved_tag_state (Manifests.receive_artifact sha256hex db body).1
      (Manifests.receive_artifact sha256hex db body).2 (jsonLoads body) cb n mediaType hclosed1
    refine ⟨?_, hps.2.1, ?_, ?_⟩
    · rw [hps.1]
      simp
    · have hrow : ({ name := n, taggedManifest := dOld } : Tag) ∈ db.tags :=
        hclosed n dOld hold
      apply hps.2.2
      simpa using hrow
    · intro hmemOld
      have hf : ContentUnit.tag n dOld
          ∈ (latestContent (Manifests.putResolved (Manifests.receive_artifact sha256hex db body).1
              (Manifests.receive_artifact sha256hex db body).2 (jsonLoads body) cb n
              mediaType).1).filter (isTagNamed n) := by
        rw [List.mem_filter]
        exact ⟨hmemOld, by simp [isTagNamed]⟩
      rw [hps.2.1] at hf
      simp only [List.mem_singleton, ContentUnit.tag.injEq] at hf
      exact hne hf.2

/-- Witness for C5: on a repository whose latest version tags "latest" at
"sha256:old", pushing a manifest hashing to "sha256:new" under the same tag
name yields a new version whose only Tag named "latest" points at
"sha256:new"; the old Tag row survives in the table but not in the version. -/
theorem tag_repush_supersedes_witness :
    (Manifests.put (fun _ => "new") (fun _ => ⟨"sha256:cfg", []⟩) tagDB "latest" [1] "mt").1.versions
      = latestContent (Manifests.put (fun _ => "new") (fun _ => ⟨"sha256:cfg", []⟩) tagDB "latest" [1] "mt").1 :: tagDB.versions ∧
    (latestContent (Manifests.put (fun _ => "new") (fun _ => ⟨"sha256:cfg", []⟩) tagDB "latest" [1] "mt").1).filter (isTagNamed "latest")
      = [ContentUnit.tag "latest" ({ digest := "sha256:new", schemaVersion := 2, mediaType := "mt", configBlob := "sha256:cfg" } : Manifest).digest] ∧
    ({ name := "latest", taggedManifest := "sha256:old" } : Tag)
      ∈ (Manifests.put (fun _ => "new") (fun _ => ⟨"sha256:cfg", []⟩) tagDB "latest" [1] "mt").1.tags ∧
    ContentUnit.tag "latest" "sha256:old"
      ∉ latestContent (Manifests.put (fun _ => "new") (fun _ => ⟨"sha256:cfg", []⟩) tagDB "latest" [1] "mt").1 :=
  tag_repush_supersedes (fun _ => "new") (fun _ => ⟨"sha256:cfg", []⟩) tagDB "latest" [1] "mt"
    "sha256:old"
    { digest := "sha256:new", schemaVersion := 2, mediaType := "mt", configBlob := "sha256:cfg" }
    (by
      intro t tm hmem
      simp only [tagDB, emptyDB, latestContent, List.headD_cons, List.mem_singleton,
        ContentUnit.tag.injEq] at hmem
      simp [tagDB, emptyDB, hmem.1, hmem.2])
    (by decide) (by decide) (by decide)

/-- C6: `Manifests.head` and `Manifests.get` resolve a reference identically:
when the first 7 characters of the reference are the literal "sha256:" it is
a Manifest digest lookup within the latest version's content — a successful
resolution returns exactly the reference, a present row-in-content succeeds
and a miss is `NotFound`; otherwise it is a Tag name lookup within the
version's content dereferenced through `tagged_manifest` — a success returns
the tagged manifest's digest of a Tag row in the content, a present row
succeeds and a miss is `NotFound`. -/
theorem manifest_reference_resolution (db : DB) (pk : String) :
    Manifests.head db pk = Manifests.get db pk ∧
    (pk.take 7 = "sha256:" →
      (∀ d, Manifests.head db pk = .ok d →
        d = pk ∧ (∃ m ∈ db.manifests, m.digest = pk) ∧
        ContentUnit.manifest pk ∈ latestContent db) ∧
      (((∃ m ∈ db.manifests, m.digest = pk) ∧ ContentUnit.manifest pk ∈ latestContent db) →
        Manifests.head db pk = .ok pk) ∧
      (¬((∃ m ∈ db.manifests, m.digest = pk) ∧ ContentUnit.manifest pk ∈ latestContent db) →
        Manifests.head db pk = .error .notFound)) ∧
    (pk.take 7 ≠ "sha256:" →
      (∀ d, Manifests.head db pk = .ok d →
        ∃ t ∈ db.tags, t.name = pk ∧ t.taggedManifest = d ∧
          ContentUnit.tag pk d ∈ latestContent db) ∧
      ((∃ t ∈ db.tags, t.name = pk ∧ ContentUnit.tag pk t.taggedManifest ∈ latestContent db) →
        ∃ d, Manifests.head db pk = .ok d) ∧
      ((¬∃ t ∈ db.tags, t.name = pk ∧ ContentUnit.tag pk t.taggedManifest ∈ latestContent db) →
        Manifests.head db pk = .error .notFound)) := by
  refine ⟨rfl, ?_, ?_⟩
  · intro hp
    have hbr : Manifests.head db pk
        = (match db.manifests.find?
            (fun m => decide (m.digest = pk ∧ ContentUnit.manifest m.digest ∈ latestContent db)) with
          | none => .error .notFound
          | some manifest => .ok manifest.digest) := by
      unfold Manifests.head
      rw [if_neg (by simp [hp])]
    rcases hfind : db.manifests.find?
        (fun m => decide (m.digest = pk ∧ ContentUnit.manifest m.digest ∈ latestContent db))
      with _ | mres
    · simp only [hfind] at hbr
      refine ⟨?_, ?_, ?_⟩
      · intro d hok
        rw [hbr] at hok
        exact Except.noConfusion hok
      · rintro ⟨⟨mm, hmm, hdig⟩, hcontent⟩
        exfalso
        apply List.find?_eq_none.mp hfind mm hmm
        simp [hdig, hcontent]
      · intro _
        exact hbr
    · simp only [hfind] at hbr
      have hpred := List.find?_some hfind
      simp only [decide_eq_true_eq] at hpred
      have hmemres := List.mem_of_find?_eq_some hfind
      refine ⟨?_, ?_, ?_⟩
      · intro d hok
        rw [hbr] at hok
        have hd : mres.digest = d := by
          simpa using hok
        refine ⟨by rw [← hd, hpred.1], ⟨mres, hmemres, hpred.1⟩, ?_⟩
        rw [← hpred.1]
        exact hpred.2
      · intro _
        rw [hbr, hpred.1]
      · intro hmiss
        exfalso
        exact hmiss ⟨⟨mres, hmemres, hpred.1⟩, hpred.1 ▸ hpred.2⟩
  · intro hp
    have hbr : Manifests.head db pk
        = (match db.tags.find?
            (fun t => decide (t.name = pk ∧
              ContentUnit.tag t.name t.taggedManifest ∈ latestContent db)) with
          | none => .error .notFound
          | some tag => .ok tag.taggedManifest) := by
      unfold Manifests.head
      rw [if_pos hp]
    rcases hfind : db.tags.find?
        (fun t => decide (t.name = pk ∧
          ContentUnit.tag t.name t.taggedManifest ∈ latestContent db))
      with _ | tres
    · simp only [hfind] at hbr
      refine ⟨?_, ?_, ?_⟩
      · intro d hok
        rw [hbr] at hok
        exact Except.noConfusion hok
      · rintro ⟨t, ht, hname, hcontent⟩
        exfalso
        apply List.find?_eq_none.mp hfind t ht
        simp [hname, hcontent]
      · intro _
        exact hbr
    · simp only [hfind] at hbr
      have hpred := List.find?_some hfind
      simp only [decide_eq_true_eq] at hpred
      have hmemres := List.mem_of_find?_eq_some hfind
      refine ⟨?_, ?_, ?_⟩
      · intro d hok
        rw [hbr] at hok
        have hd : tres.taggedManifest = d := by
          simpa using hok
        refine ⟨tres, hmemres, hpred.1, hd, ?_⟩
        rw [← hd, ← hpred.1]
        exact hpred.2
      · intro _
        exact ⟨tres.taggedManifest, hbr⟩
      · intro hmiss
        exfalso
        exact hmiss ⟨tres, hmemres, hpred.1, hpred.1 ▸ hpred.2⟩

/-- Witness for C6: on the empty repository both branches miss — the tag
reference "latest" and the digest reference "sha256:x" each resolve to
`NotFound`. -/
theorem manifest_reference_resolution_witness :
    Manifests.head emptyDB "latest" = .error .notFound ∧
    Manifests.head emptyDB "sha256:x" = .error .notFound := by
  constructor
  · exact ((manifest_reference_resolution emptyDB "latest").2.2 (by decide)).2.2
      (by simp [emptyDB, latestContent])
  · exact ((manifest_reference_resolution emptyDB "sha256:x").2.1 (by decide)).2.2
      (by simp [emptyDB, latestContent])

end PulpContainer
